import Mathlib

/-! Verification of the CDM storage-manager subsystem
(`objectModel/Python/cdm/storage/storage_manager.py`).

Python strings are embedded as `List Char`; Python `None` for a string field
is embedded as `[]`, matching Python truthiness tests (`if s:`), which are
the only way these fields are consulted in the translated code.  Fallible
operations that can raise a runtime exception in Python are embedded in
`Except (List Char) _`, where the `.error` payload names the exception.
Logging is ignored: it never influences control flow or return values.
-/

namespace CdmStorage

/-- Python `s.startswith(pat)` on character lists. -/
def str_startswith : List Char → List Char → Bool
  | _, [] => true
  | [], _ :: _ => false
  | c :: cs, d :: ds => c == d && str_startswith cs ds

/-- Python `pat in s` (substring containment) on character lists. -/
def str_contains : List Char → List Char → Bool
  | [], pat => str_startswith [] pat
  | s@(_ :: cs), pat => str_startswith s pat || str_contains cs pat

/-- Python truthiness-driven `x or y` for strings (`None`/`''` are falsy). -/
def pyOr (a b : List Char) : List Char :=
  if a = [] then b else a

/-- Embedding of `StorageManager._contains_unsupported_path_format`: rejects a path that
starts with `./` or `.\`, or contains `../`, `..\`, `/./` or `\.\`. -/
def contains_unsupported_path_format (path : List Char) : Bool :=
  if str_startswith path "./".data || str_startswith path ".\\".data then true
  else if str_contains path "../".data || str_contains path "..\\".data then true
  else if str_contains path "/./".data || str_contains path "\\.\\".data then true
  else false

/-- Helper for `split_namespace_path`: Python `object_path.find(':')` followed
by the two slices — `some (before, after)` at the first `:`, `none` if absent. -/
def findColonSplit : List Char → Option (List Char × List Char)
  | [] => none
  | c :: cs =>
    if c = ':' then some ([], cs)
    else
      match findColonSplit cs with
      | none => none
      | some (a, b) => some (c :: a, b)

/-- Embedding of `StorageManager.split_namespace_path`: split on the first `:`;
if there is none, the namespace is empty and the whole string remains. -/
def split_namespace_path (object_path : List Char) : List Char × List Char :=
  match findColonSplit object_path with
  | some r => r
  | none => ([], object_path)

/-- The adapter capability consumed by the storage manager.
Modelled from the spec: concrete adapters (`LocalAdapter`, `GithubAdapter`,
`ResourceAdapter`, ...) are external collaborators outside `src/`; the spec's
Adapter Capability contract gives them a `kind`/`_type` tag (with reserved
kind `resource`), a self-described configuration blob returned by
`fetch_config` (empty meaning null/empty), and `create_corpus_path`, whose
empty result means "path not recognized". -/
structure StorageAdapterBase where
  _type : List Char
  fetch_config : List Char
  create_corpus_path : List Char → List Char

/-- Embedding of `CdmFolderDefinition`, restricted to the two fields the storage manager
reads and writes (`namespace`, `folder_path`). -/
structure CdmFolderDefinition where
  «namespace» : List Char
  folder_path : List Char
deriving DecidableEq

/-- A context object for path resolution exposing `namespace` and
`folder_path` directly (the first branch of the `hasattr` test in
`create_absolute_corpus_path`; containers and documents both qualify). -/
structure CdmContainerCtx where
  «namespace» : List Char
  folder_path : List Char
deriving DecidableEq

/-- The mutable state of a `StorageManager` (plus the one corpus field it
writes, `app_id`).  The two `OrderedDict`s are embedded as association lists
in insertion order; the system-defined namespace set as a list. -/
structure StorageState where
  default_namespace : List Char
  app_id : List Char
  namespace_adapters : List (List Char × StorageAdapterBase)
  namespace_folders : List (List Char × CdmFolderDefinition)
  system_defined_namespaces : List (List Char)

/-- Ordered-dict key lookup (`k in d` / `d[k]`). -/
def odLookup {α : Type} : List (List Char × α) → List Char → Option α
  | [], _ => none
  | kv :: rest, k => if kv.1 = k then some kv.2 else odLookup rest k

/-- Ordered-dict assignment `d[k] = v`: replaces in place if the key is
present, otherwise appends at the end. -/
def odInsert {α : Type} : List (List Char × α) → List Char → α → List (List Char × α)
  | [], k, v => [(k, v)]
  | kv :: rest, k, v => if kv.1 = k then (k, v) :: rest else kv :: odInsert rest k v

/-- Payload of the `IndexError` raised by Python when `''[0]` is evaluated. -/
def index_error : List Char := "IndexError: string index out of range".data

/-- Payload of the `AttributeError` raised by Python when
`None.startswith(...)` is evaluated. -/
def attribute_error : List Char := "AttributeError: NoneType has no attribute startswith".data

/-- Embedding of `StorageManager.create_absolute_corpus_path`.  Returns `.ok none` for the
logged failure paths (malformed path, malformed prefix, namespace mismatch),
`.ok (some path)` on success, and `.error _` where the Python code raises
(`path_tuple[1][0]` on an empty remainder). -/
def create_absolute_corpus_path (st : StorageState) (object_path : List Char)
    (obj : Option CdmContainerCtx) : Except (List Char) (Option (List Char)) :=
  if contains_unsupported_path_format object_path = true then Except.ok none
  else
    let path_tuple := split_namespace_path object_path
    let pfx : List Char :=
      match obj with
      | some o => o.folder_path
      | none => []
    let namespace_from_obj : List Char :=
      match obj with
      | some o => o.«namespace»
      | none => []
    if pfx ≠ [] ∧ contains_unsupported_path_format pfx = true then Except.ok none
    else
      let pfx := if pfx ≠ [] ∧ pfx.getLast? ≠ some '/' then pfx ++ ['/'] else pfx
      match path_tuple.2 with
      | [] => Except.error index_error
      | c :: rest =>
        if c ≠ '/' then
          let pfx := if obj.isNone then ['/'] else pfx
          if path_tuple.1 ≠ [] ∧ path_tuple.1 ≠ namespace_from_obj then Except.ok none
          else
            let new_tail := pfx ++ c :: rest
            let final_namespace := pyOr namespace_from_obj (pyOr path_tuple.1 st.default_namespace)
            if final_namespace ≠ [] then Except.ok (some (final_namespace ++ ':' :: new_tail))
            else Except.ok (some new_tail)
        else
          let final_namespace := pyOr path_tuple.1 (pyOr namespace_from_obj st.default_namespace)
          if final_namespace ≠ [] then Except.ok (some (final_namespace ++ ':' :: (c :: rest)))
          else Except.ok (some (c :: rest))

/-- Embedding of `StorageManager.create_relative_corpus_path`: make the path absolute, then
strip the `relative_to` namespace prefix and folder-path prefix when present.
Raises (`.error`) where Python would call `.startswith` on `None`. -/
def create_relative_corpus_path (st : StorageState) (object_path : List Char)
    (relative_to : Option CdmContainerCtx) : Except (List Char) (Option (List Char)) :=
  match create_absolute_corpus_path st object_path relative_to with
  | Except.error e => Except.error e
  | Except.ok new_path =>
    match relative_to with
    | none => Except.ok new_path
    | some r =>
      if r.«namespace» = [] then Except.ok new_path
      else
        let namespace_string := r.«namespace» ++ [':']
        match new_path with
        | none => Except.error attribute_error
        | some np =>
          if str_startswith np namespace_string then
            let np1 := np.drop namespace_string.length
            if r.folder_path ≠ [] ∧ str_startswith np1 r.folder_path = true then
              Except.ok (some (np1.drop r.folder_path.length))
            else Except.ok (some np1)
          else Except.ok (some np)

/-- Embedding of `StorageManager.fetch_adapter`: the mounted adapter, or `none` (logged as
`NamespaceNotRegistered`) if the namespace has no adapter. -/
def fetch_adapter (st : StorageState) (ns : List Char) : Option StorageAdapterBase :=
  odLookup st.namespace_adapters ns

/-- Embedding of `StorageManager.fetch_root_folder`: the virtual root container for a
truthy, registered namespace; `none` (logged) otherwise. -/
def fetch_root_folder (st : StorageState) (ns : List Char) : Option CdmFolderDefinition :=
  if ns ≠ [] then odLookup st.namespace_folders ns else none

/-- Embedding of `StorageManager.mount`: with a truthy adapter, installs (or replaces) the
adapter, creates a fresh root folder with `namespace = ns` and
`folder_path = "/"`, and removes `ns` from the system-defined set; with
`None` it does nothing. -/
def mount (st : StorageState) (ns : List Char) (adapter : Option StorageAdapterBase) :
    StorageState :=
  match adapter with
  | none => st
  | some a =>
    { st with
      namespace_adapters := odInsert st.namespace_adapters ns a
      namespace_folders := odInsert st.namespace_folders ns ⟨ns, ['/']⟩
      system_defined_namespaces :=
        if ns ∈ st.system_defined_namespaces then
          st.system_defined_namespaces.filter (fun x => x != ns)
        else st.system_defined_namespaces }

/-- Embedding of `ResourceAdapter()`: the fixed fallback adapter re-mounted for the `cdm`
namespace by `unmount`.  Modelled from the spec: `ResourceAdapter` lives
outside `src/`; the spec reserves the `resource` kind tag for it and excludes
it from exported configuration, so its blob is empty and it claims no paths. -/
def resourceAdapter : StorageAdapterBase :=
  { _type := "resource".data
    fetch_config := []
    create_corpus_path := fun _ => [] }

/-- Embedding of `StorageManager.unmount`: pops the adapter and the root folder for `ns`,
drops `ns` from the system-defined set, and — special case — immediately
re-mounts a `ResourceAdapter` when `ns` is `cdm`. -/
def unmount (st : StorageState) (ns : List Char) : StorageState :=
  let st1 : StorageState :=
    { st with
      namespace_adapters := st.namespace_adapters.filter (fun kv => kv.1 != ns)
      namespace_folders := st.namespace_folders.filter (fun kv => kv.1 != ns)
      system_defined_namespaces :=
        if ns ∈ st.system_defined_namespaces then
          st.system_defined_namespaces.filter (fun x => x != ns)
        else st.system_defined_namespaces }
  if ns = "cdm".data then mount st1 ns (some resourceAdapter) else st1

/-- The adapter-config loop body of `StorageManager.fetch_config`: skip
resource adapters and system-defined namespaces, skip adapters whose config
blob is empty (logged), and otherwise emit the parsed blob with the
namespace injected (embedded as the pair `(namespace, blob)`). -/
def fetch_config_adapters (st : StorageState) :
    List (List Char × StorageAdapterBase) → List (List Char × List Char)
  | [] => []
  | (ns, a) :: rest =>
    if a._type = "resource".data ∨ ns ∈ st.system_defined_namespaces then
      fetch_config_adapters st rest
    else if a.fetch_config = [] then fetch_config_adapters st rest
    else (ns, a.fetch_config) :: fetch_config_adapters st rest

/-- The configuration document produced by `fetch_config` (embedding of the
serialized JSON object): optional `appId`, the `defaultNamespace`, and the
adapter entries in registry order. -/
structure FetchedConfig where
  appId : Option (List Char)
  defaultNamespace : List Char
  adapters : List (List Char × List Char)
deriving DecidableEq

/-- Embedding of `StorageManager.fetch_config`. -/
def fetch_config (st : StorageState) : FetchedConfig :=
  { appId := if st.app_id ≠ [] then some st.app_id else none
    defaultNamespace := st.default_namespace
    adapters := fetch_config_adapters st st.namespace_adapters }

/-- One entry of the `adapters` array in an imported configuration document;
`none` embeds an absent key.  Truthiness (`item.get(k)`) treats an absent key,
`None` and the empty string alike. -/
structure AdapterConfigEntry where
  «namespace» : Option (List Char)
  config : Option (List Char)
  type : Option (List Char)
deriving DecidableEq

/-- Python truthiness of an optional string-valued JSON field. -/
def truthy : Option (List Char) → Bool
  | none => false
  | some s => !s.isEmpty

/-- A parsed configuration document passed to `mount_from_config`
(embedding of `json.loads(adapter_config)`). -/
structure MountConfigDoc where
  appId : Option (List Char)
  defaultNamespace : Option (List Char)
  adapters : List AdapterConfigEntry
deriving DecidableEq

/-- Embedding of `StorageManager._registered_adapter_types`: the fixed registry of known
adapter type tags and the class names they map to. -/
def registered_adapter_types : List (List Char × List Char) :=
  [("local".data, "LocalAdapter".data),
   ("adls".data, "ADLSAdapter".data),
   ("remote".data, "RemoteAdapter".data),
   ("github".data, "GithubAdapter".data)]

/-- Embedding of `getattr(adapters_module, adapter_type)()` followed by
`adapter.update_config(json.dumps(configs))`.  Modelled from the spec: the
concrete adapter classes are external collaborators; each known tag maps to
one concrete adapter whose `update_config` stores the blob, and none of the
four known classes is of the reserved `resource` kind. -/
def instantiate_adapter (class_name : List Char) (cfg : List Char) : StorageAdapterBase :=
  { _type := class_name
    fetch_config := cfg
    create_corpus_path := fun _ => [] }

/-- One iteration of the `for item in adapter_config_json['adapters']` loop in
`mount_from_config`: skip (with a logged error) entries whose `namespace`,
`config` or `type` field is missing; collect entries with an unknown type tag
into the unrecognized list; instantiate, configure and mount the rest. -/
def mount_from_config_step (acc : StorageState × List AdapterConfigEntry)
    (item : AdapterConfigEntry) : StorageState × List AdapterConfigEntry :=
  if truthy item.«namespace» = false then acc
  else if truthy item.config = false then acc
  else if truthy item.type = false then acc
  else
    match odLookup registered_adapter_types (item.type.getD []) with
    | none => (acc.1, acc.2 ++ [item])
    | some class_name =>
      (mount acc.1 (item.«namespace».getD [])
        (some (instantiate_adapter class_name (item.config.getD []))), acc.2)

/-- The adapter loop of `mount_from_config`, in document order. -/
def mount_from_config_loop (acc : StorageState × List AdapterConfigEntry) :
    List AdapterConfigEntry → StorageState × List AdapterConfigEntry
  | [] => acc
  | item :: rest => mount_from_config_loop (mount_from_config_step acc item) rest

/-- Embedding of `StorageManager.mount_from_config`.  `none` input embeds a null/empty
config string (logged error, nothing changes, returns `None`).  The returned
pair is the mutated state and the function's return value: the unrecognized
list if `does_return_error_list`, else `none`. -/
def mount_from_config (st : StorageState) (adapter_config : Option MountConfigDoc)
    (does_return_error_list : Bool) : StorageState × Option (List AdapterConfigEntry) :=
  match adapter_config with
  | none => (st, none)
  | some doc =>
    let st := if truthy doc.appId then { st with app_id := doc.appId.getD [] } else st
    let st :=
      if truthy doc.defaultNamespace then
        { st with default_namespace := doc.defaultNamespace.getD [] }
      else st
    let res := mount_from_config_loop (st, []) doc.adapters
    (res.1, if does_return_error_list then some res.2 else none)

/-- The adapter loop of `adapter_path_to_corpus_path`: ask every mounted
adapter in insertion order; the first truthy translation wins and is prefixed
with its namespace. -/
def adapter_loop (adapter_path : List Char) :
    List (List Char × StorageAdapterBase) → Option (List Char)
  | [] => none
  | (k, v) :: rest =>
    let r := v.create_corpus_path adapter_path
    if r ≠ [] then some (k ++ ':' :: r) else adapter_loop adapter_path rest

/-- Embedding of `StorageManager.adapter_path_to_corpus_path`: first-match dispatch over
the mounted adapters; `none` (logged `UnrecognizedAdapterPath`) if no adapter
recognizes the path. -/
def adapter_path_to_corpus_path (st : StorageState) (adapter_path : List Char) :
    Option (List Char) :=
  if st.namespace_adapters.isEmpty then none
  else adapter_loop adapter_path st.namespace_adapters

/-- The operations that mutate the registry, for stating invariant
preservation over arbitrary operation sequences. -/
inductive StorageOp where
  | mountOp (ns : List Char) (adapter : Option StorageAdapterBase)
  | unmountOp (ns : List Char)
  | mountFromConfigOp (cfg : Option MountConfigDoc) (flag : Bool)

/-- Apply one registry operation to the state. -/
def applyOp (st : StorageState) : StorageOp → StorageState
  | StorageOp.mountOp ns a => mount st ns a
  | StorageOp.unmountOp ns => unmount st ns
  | StorageOp.mountFromConfigOp cfg flag => (mount_from_config st cfg flag).1

/-- Apply a sequence of registry operations from left to right. -/
def applyOps (st : StorageState) : List StorageOp → StorageState
  | [] => st
  | op :: ops => applyOps (applyOp st op) ops

/-- The registry pairing invariant: the adapter map and the root-folder map
hold exactly the same namespaces (in the same insertion order), and every
registered root folder carries its key as `namespace` and `"/"` as
`folder_path`. -/
def RegistryInv (st : StorageState) : Prop :=
  st.namespace_adapters.map Prod.fst = st.namespace_folders.map Prod.fst
  ∧ ∀ kv ∈ st.namespace_folders, kv.2.«namespace» = kv.1 ∧ kv.2.folder_path = ['/']

instance (st : StorageState) : Decidable (RegistryInv st) := by
  unfold RegistryInv; infer_instance

/-- A storage state with empty registries, no default namespace and no app id
(used as a concrete base state in examples). -/
def stEmpty : StorageState :=
  { default_namespace := []
    app_id := []
    namespace_adapters := []
    namespace_folders := []
    system_defined_namespaces := [] }

theorem str_startswith_append (a b : List Char) : str_startswith (a ++ b) a = true := by
  induction a with
  | nil => cases b <;> rfl
  | cons c cs ih => simp [str_startswith, ih]

theorem findColonSplit_of_not_mem {p : List Char} (h : ':' ∉ p) :
    findColonSplit p = none := by
  induction p with
  | nil => rfl
  | cons c cs ih =>
    simp only [List.mem_cons, not_or] at h
    have hc : ¬c = ':' := fun hh => h.1 hh.symm
    simp [findColonSplit, hc, ih h.2]

theorem findColonSplit_append {ns : List Char} (rest : List Char) (h : ':' ∉ ns) :
    findColonSplit (ns ++ ':' :: rest) = some (ns, rest) := by
  induction ns with
  | nil => simp [findColonSplit]
  | cons c cs ih =>
    simp only [List.mem_cons, not_or] at h
    have hc : ¬c = ':' := fun hh => h.1 hh.symm
    simp [findColonSplit, hc, ih h.2]

theorem split_namespace_path_of_not_mem {p : List Char} (h : ':' ∉ p) :
    split_namespace_path p = ([], p) := by
  simp [split_namespace_path, findColonSplit_of_not_mem h]

theorem split_namespace_path_append {ns : List Char} (rest : List Char) (h : ':' ∉ ns) :
    split_namespace_path (ns ++ ':' :: rest) = (ns, rest) := by
  simp [split_namespace_path, findColonSplit_append rest h]

theorem odLookup_odInsert_self {α : Type} (l : List (List Char × α)) (k : List Char) (v : α) :
    odLookup (odInsert l k v) k = some v := by
  induction l with
  | nil => simp [odInsert, odLookup]
  | cons kv rest ih =>
    by_cases h : kv.1 = k
    · simp [odInsert, h, odLookup]
    · simp [odInsert, h, odLookup, ih]

theorem odLookup_odInsert_ne {α : Type} (l : List (List Char × α)) (k k' : List Char) (v : α)
    (h : k' ≠ k) : odLookup (odInsert l k v) k' = odLookup l k' := by
  have h' : ¬k = k' := fun hh => h hh.symm
  induction l with
  | nil => simp [odInsert, odLookup, h']
  | cons kv rest ih =>
    by_cases hk : kv.1 = k
    · rw [odInsert, if_pos hk, odLookup, odLookup, hk, if_neg h', if_neg h']
    · rw [odInsert, if_neg hk, odLookup, odLookup]
      by_cases hk' : kv.1 = k'
      · rw [if_pos hk', if_pos hk']
      · rw [if_neg hk', if_neg hk', ih]

theorem odLookup_filter_out {α : Type} (l : List (List Char × α)) (k : List Char) :
    odLookup (l.filter (fun kv => kv.1 != k)) k = none := by
  induction l with
  | nil => rfl
  | cons kv rest ih =>
    rw [List.filter_cons]
    by_cases h : kv.1 = k
    · simp only [h, bne_self_eq_false, if_neg Bool.false_ne_true]
      exact ih
    · have hb : (kv.1 != k) = true := bne_iff_ne.mpr h
      rw [if_pos hb, odLookup, if_neg h]
      exact ih

theorem odLookup_eq_none_of_not_mem_keys {α : Type} (l : List (List Char × α)) (k : List Char)
    (h : k ∉ l.map Prod.fst) : odLookup l k = none := by
  induction l with
  | nil => rfl
  | cons kv rest ih =>
    simp only [List.map_cons, List.mem_cons, not_or] at h
    have hk : ¬kv.1 = k := fun hh => h.1 hh.symm
    rw [odLookup, if_neg hk]
    exact ih h.2

theorem odLookup_isSome_iff_mem_keys {α : Type} (l : List (List Char × α)) (k : List Char) :
    (odLookup l k).isSome = true ↔ k ∈ l.map Prod.fst := by
  induction l with
  | nil => simp [odLookup]
  | cons kv rest ih =>
    by_cases h : kv.1 = k
    · rw [odLookup, if_pos h, List.map_cons]
      constructor
      · intro _
        rw [← h]
        exact List.mem_cons_self _ _
      · intro _
        rfl
    · rw [odLookup, if_neg h, ih, List.map_cons]
      have hk : ¬k = kv.1 := fun hh => h hh.symm
      constructor
      · intro hm
        exact List.mem_cons_of_mem _ hm
      · intro hm
        rcases List.mem_cons.mp hm with h1 | h1
        · exact absurd h1 hk
        · exact h1

theorem keys_odInsert {α : Type} (l : List (List Char × α)) (k : List Char) (v : α) :
    (odInsert l k v).map Prod.fst =
      if k ∈ l.map Prod.fst then l.map Prod.fst else l.map Prod.fst ++ [k] := by
  induction l with
  | nil => simp [odInsert]
  | cons kv rest ih =>
    by_cases h : kv.1 = k
    · rw [odInsert, if_pos h, List.map_cons, List.map_cons,
        if_pos (show k ∈ kv.1 :: rest.map Prod.fst by rw [h]; exact List.mem_cons_self _ _)]
      rw [h]
    · have hk : ¬k = kv.1 := fun hh => h hh.symm
      rw [odInsert, if_neg h, List.map_cons, List.map_cons, ih]
      by_cases hm : k ∈ rest.map Prod.fst
      · rw [if_pos hm, if_pos (by simp [hm])]
      · rw [if_neg hm, if_neg (by simp [hk, hm]), List.cons_append]

theorem keys_filter_out {α : Type} (l : List (List Char × α)) (k : List Char) :
    (l.filter (fun kv => kv.1 != k)).map Prod.fst =
      (l.map Prod.fst).filter (fun x => x != k) := by
  induction l with
  | nil => rfl
  | cons kv rest ih =>
    rw [List.map_cons, List.filter_cons, List.filter_cons]
    by_cases h : kv.1 = k
    · simp only [h, bne_self_eq_false, if_neg Bool.false_ne_true]
      exact ih
    · have hb : (kv.1 != k) = true := bne_iff_ne.mpr h
      rw [if_pos hb, if_pos hb, List.map_cons, ih]

theorem mem_odInsert {α : Type} {l : List (List Char × α)} {k : List Char} {v : α}
    {kv : List Char × α} (h : kv ∈ odInsert l k v) : kv ∈ l ∨ kv = (k, v) := by
  induction l with
  | nil => simp [odInsert] at h; simp [h]
  | cons hd rest ih =>
    by_cases hh : hd.1 = k
    · simp only [odInsert, if_pos hh, List.mem_cons] at h
      rcases h with h | h
      · right; exact h
      · left; simp [h]
    · simp only [odInsert, if_neg hh, List.mem_cons] at h
      rcases h with h | h
      · left; simp [h]
      · rcases ih h with h' | h'
        · left; simp [h']
        · right; exact h'

/-- Rewrites `_contains_unsupported_path_format` as one boolean disjunction of its six
tests. -/
theorem contains_unsupported_eq (p : List Char) :
    contains_unsupported_path_format p =
      (str_startswith p "./".data || str_startswith p ".\\".data ||
       str_contains p "../".data || str_contains p "..\\".data ||
       str_contains p "/./".data || str_contains p "\\.\\".data) := by
  unfold contains_unsupported_path_format
  split
  · simp_all
  · split
    · simp_all
    · split
      · simp_all
      · simp_all

/-- Claim C3 (counterexample): the path `a./b` contains a `./` segment, yet
the validation check accepts it and `create_absolute_corpus_path` succeeds on
it instead of failing. -/
theorem c3_counterexample :
    contains_unsupported_path_format "a./b".data = false
    ∧ create_absolute_corpus_path stEmpty "a./b".data none =
        Except.ok (some "/a./b".data) :=
  ⟨rfl, rfl⟩

/-- Claim C3 (amended): for every path that starts with `./` or `.\`, or
contains `../`, `..\`, `/./` or `\.\` anywhere, the validation check reports
it as malformed and `create_absolute_corpus_path` fails (returns the empty
result) for every state and every context object, before any resolution
step.  (A `./` occurring other than at the start, and not inside one of those
substrings, is accepted by the code.) -/
theorem malformed_path_rejected (p : List Char)
    (h : str_startswith p "./".data = true ∨ str_startswith p ".\\".data = true ∨
         str_contains p "../".data = true ∨ str_contains p "..\\".data = true ∨
         str_contains p "/./".data = true ∨ str_contains p "\\.\\".data = true) :
    contains_unsupported_path_format p = true
    ∧ ∀ (st : StorageState) (obj : Option CdmContainerCtx),
        create_absolute_corpus_path st p obj = Except.ok none := by
  have hc : contains_unsupported_path_format p = true := by
    rw [contains_unsupported_eq]
    rcases h with h | h | h | h | h | h <;> simp [h]
  refine ⟨hc, fun st obj => ?_⟩
  unfold create_absolute_corpus_path
  rw [if_pos hc]

/-- Claim C3 (witness). -/
theorem malformed_path_rejected_witness :
    contains_unsupported_path_format "../x".data = true
    ∧ create_absolute_corpus_path stEmpty "../x".data none = Except.ok none := by
  have h := malformed_path_rejected "../x".data (by decide)
  exact ⟨h.1, h.2 stEmpty none⟩

/-- Claim C4 (code bug): `create_absolute_corpus_path` raises `IndexError`
(out of `path_tuple[1][0]`) on any input whose remainder after the namespace
split is empty, such as `"local:"` or `""`; and `create_relative_corpus_path`
raises `AttributeError` (out of `None.startswith`) when the inner
absolute-path step fails on a malformed path while `relative_to` carries a
namespace — contradicting the requirement that both operations return an
empty/failure value instead of raising. -/
theorem path_ops_raise :
    create_absolute_corpus_path stEmpty "local:".data none = Except.error index_error
    ∧ create_absolute_corpus_path stEmpty [] none = Except.error index_error
    ∧ create_relative_corpus_path stEmpty "./x".data
        (some ⟨"local".data, "/".data⟩) = Except.error attribute_error :=
  ⟨rfl, rfl, rfl⟩

/-- Claim C7: after `unmount ns` for any `ns` other than `cdm`, fetching the
adapter for `ns` fails with the `NamespaceNotRegistered` failure value; after
`unmount "cdm"` the `cdm` namespace still resolves, to the immediately
re-mounted fallback `ResourceAdapter`. -/
theorem unmount_fetch_adapter (st : StorageState) (ns : List Char)
    (h : ns ≠ "cdm".data) :
    fetch_adapter (unmount st ns) ns = none
    ∧ fetch_adapter (unmount st "cdm".data) "cdm".data = some resourceAdapter := by
  constructor
  · simp only [unmount, if_neg h, fetch_adapter]
    exact odLookup_filter_out _ _
  · simp only [unmount, if_pos rfl, mount, fetch_adapter]
    exact odLookup_odInsert_self _ _ _

/-- Claim C7 (witness). -/
theorem unmount_fetch_adapter_witness :
    fetch_adapter (unmount stEmpty "local".data) "local".data = none
    ∧ fetch_adapter (unmount stEmpty "cdm".data) "cdm".data = some resourceAdapter :=
  unmount_fetch_adapter stEmpty "local".data (by decide)

/-- Claim C10: `mount` with an absent adapter is a strict no-op; with a
present adapter it changes exactly the entries for its namespace — the
adapter map and folder map at other keys, the default namespace and the app
id are untouched, the namespace gets the new adapter and a fresh root
container at `/`, and the namespace leaves the system-defined set while the
rest of that set is unchanged. -/
theorem mount_frame (st : StorageState) (ns : List Char) :
    mount st ns none = st
    ∧ ∀ (a : StorageAdapterBase) (k : List Char),
        odLookup (mount st ns (some a)).namespace_adapters k =
          (if k = ns then some a else odLookup st.namespace_adapters k)
        ∧ odLookup (mount st ns (some a)).namespace_folders k =
          (if k = ns then some ⟨ns, ['/']⟩ else odLookup st.namespace_folders k)
        ∧ (k ∈ (mount st ns (some a)).system_defined_namespaces ↔
            k ∈ st.system_defined_namespaces ∧ k ≠ ns)
        ∧ (mount st ns (some a)).default_namespace = st.default_namespace
        ∧ (mount st ns (some a)).app_id = st.app_id := by
  refine ⟨rfl, fun a k => ⟨?_, ?_, ?_, rfl, rfl⟩⟩
  · by_cases hk : k = ns
    · rw [if_pos hk, hk]
      exact odLookup_odInsert_self _ _ _
    · rw [if_neg hk]
      exact odLookup_odInsert_ne _ _ _ _ hk
  · by_cases hk : k = ns
    · rw [if_pos hk, hk]
      exact odLookup_odInsert_self _ _ _
    · rw [if_neg hk]
      exact odLookup_odInsert_ne _ _ _ _ hk
  · show k ∈ (if ns ∈ st.system_defined_namespaces then
        st.system_defined_namespaces.filter (fun x => x != ns)
      else st.system_defined_namespaces) ↔ _
    by_cases hm : ns ∈ st.system_defined_namespaces
    · rw [if_pos hm]
      simp [List.mem_filter, bne_iff_ne]
    · rw [if_neg hm]
      constructor
      · intro hk
        exact ⟨hk, fun hh => hm (hh ▸ hk)⟩
      · intro hk
        exact hk.1

theorem adapter_loop_none (p : List Char) (l : List (List Char × StorageAdapterBase))
    (h : ∀ kv ∈ l, kv.2.create_corpus_path p = []) : adapter_loop p l = none := by
  induction l with
  | nil => rfl
  | cons kv rest ih =>
    have h1 := h kv (List.mem_cons_self _ _)
    obtain ⟨k, v⟩ := kv
    simp only [adapter_loop]
    rw [if_neg (by simp [h1] at h1 ⊢; exact h1)]
    exact ih (fun kv hkv => h kv (List.mem_cons_of_mem _ hkv))

theorem adapter_loop_first (p : List Char) (pre post : List (List Char × StorageAdapterBase))
    (ns : List Char) (a : StorageAdapterBase)
    (hpre : ∀ kv ∈ pre, kv.2.create_corpus_path p = [])
    (ha : a.create_corpus_path p ≠ []) :
    adapter_loop p (pre ++ (ns, a) :: post) = some (ns ++ ':' :: a.create_corpus_path p) := by
  induction pre with
  | nil =>
    simp only [List.nil_append, adapter_loop]
    rw [if_pos ha]
  | cons kv rest ih =>
    have h1 := hpre kv (List.mem_cons_self _ _)
    obtain ⟨k, v⟩ := kv
    simp only [List.cons_append, adapter_loop]
    rw [if_neg (by simp at h1 ⊢; simp [h1])]
    exact ih (fun kv hkv => hpre kv (List.mem_cons_of_mem _ hkv))

/-- Claim C8: `adapter_path_to_corpus_path` walks the mounted adapters in
registry insertion order; for any decomposition of the registry in which
every earlier adapter returns an empty translation and some adapter
recognizes the path, the result is that adapter's namespace-prefixed
translation; and if every mounted adapter returns an empty translation the
call fails with the empty `UnrecognizedAdapterPath` result. -/
theorem adapter_path_first_match (st : StorageState) (p : List Char) :
    ((∀ kv ∈ st.namespace_adapters, kv.2.create_corpus_path p = []) →
      adapter_path_to_corpus_path st p = none)
    ∧ ∀ (pre post : List (List Char × StorageAdapterBase)) (ns : List Char)
        (a : StorageAdapterBase),
        st.namespace_adapters = pre ++ (ns, a) :: post →
        (∀ kv ∈ pre, kv.2.create_corpus_path p = []) →
        a.create_corpus_path p ≠ [] →
        adapter_path_to_corpus_path st p =
          some (ns ++ ':' :: a.create_corpus_path p) := by
  constructor
  · intro h
    unfold adapter_path_to_corpus_path
    by_cases he : st.namespace_adapters.isEmpty
    · rw [if_pos he]
    · rw [if_neg he]
      exact adapter_loop_none p _ h
  · intro pre post ns a hdec hpre ha
    unfold adapter_path_to_corpus_path
    rw [hdec]
    rw [if_neg (by simp)]
    exact adapter_loop_first p pre post ns a hpre ha

/-- An adapter that recognizes no path (used in concrete examples). -/
def aNoMatch : StorageAdapterBase :=
  { _type := "local".data, fetch_config := "cfgA".data, create_corpus_path := fun _ => [] }

/-- An adapter translating every native path `q` to `/q` (concrete example). -/
def aMatch : StorageAdapterBase :=
  { _type := "remote".data, fetch_config := "cfgB".data,
    create_corpus_path := fun q => '/' :: q }

/-- A state with two mounted adapters of which only the second, `n2`,
recognizes paths. -/
def stTwo : StorageState :=
  { stEmpty with namespace_adapters := [("n1".data, aNoMatch), ("n2".data, aMatch)] }

/-- Claim C8 (witness): with two mounted adapters of which only the second
recognizes the path, dispatch returns the second adapter's
namespace-prefixed translation. -/
theorem adapter_path_first_match_witness :
    adapter_path_to_corpus_path stTwo "x".data = some "n2:/x".data := by
  have h := (adapter_path_first_match stTwo "x".data).2 [("n1".data, aNoMatch)] []
    "n2".data aMatch rfl
    (by
      intro kv hkv
      rw [List.mem_singleton.mp hkv]
      rfl)
    (by decide)
  exact h

theorem fetch_config_adapters_sound (st : StorageState)
    (l : List (List Char × StorageAdapterBase)) :
    ∀ e ∈ fetch_config_adapters st l,
      ∃ a, (e.1, a) ∈ l ∧ a._type ≠ "resource".data ∧
        e.1 ∉ st.system_defined_namespaces ∧ a.fetch_config = e.2 ∧ e.2 ≠ [] := by
  induction l with
  | nil => intro e he; exact absurd he (List.not_mem_nil e)
  | cons kv rest ih =>
    obtain ⟨ns, a⟩ := kv
    intro e he
    by_cases h1 : a._type = "resource".data ∨ ns ∈ st.system_defined_namespaces
    · rw [fetch_config_adapters, if_pos h1] at he
      obtain ⟨b, hb⟩ := ih e he
      exact ⟨b, List.mem_cons_of_mem _ hb.1, hb.2⟩
    · by_cases h2 : a.fetch_config = []
      · rw [fetch_config_adapters, if_neg h1, if_pos h2] at he
        obtain ⟨b, hb⟩ := ih e he
        exact ⟨b, List.mem_cons_of_mem _ hb.1, hb.2⟩
      · rw [fetch_config_adapters, if_neg h1, if_neg h2] at he
        rcases List.mem_cons.mp he with h | h
        · push_neg at h1
          exact ⟨a, by rw [h]; exact List.mem_cons_self _ _,
            h1.1, by rw [h]; exact h1.2, by rw [h], by rw [h]; exact h2⟩
        · obtain ⟨b, hb⟩ := ih e h
          exact ⟨b, List.mem_cons_of_mem _ hb.1, hb.2⟩

theorem fetch_config_adapters_complete (st : StorageState)
    (l : List (List Char × StorageAdapterBase)) :
    ∀ kv ∈ l, kv.2._type ≠ "resource".data → kv.1 ∉ st.system_defined_namespaces →
      kv.2.fetch_config ≠ [] →
      (kv.1, kv.2.fetch_config) ∈ fetch_config_adapters st l := by
  induction l with
  | nil => intro kv hkv; exact absurd hkv (List.not_mem_nil kv)
  | cons hd rest ih =>
    obtain ⟨ns, a⟩ := hd
    intro kv hkv hty hsys hcfg
    rcases List.mem_cons.mp hkv with h | h
    · rw [h] at hty hsys hcfg ⊢
      rw [fetch_config_adapters, if_neg (by exact fun hh => hh.elim hty hsys),
        if_neg hcfg]
      exact List.mem_cons_self _ _
    · have hmem := ih kv h hty hsys hcfg
      by_cases h1 : a._type = "resource".data ∨ ns ∈ st.system_defined_namespaces
      · rw [fetch_config_adapters, if_pos h1]
        exact hmem
      · by_cases h2 : a.fetch_config = []
        · rw [fetch_config_adapters, if_neg h1, if_pos h2]
          exact hmem
        · rw [fetch_config_adapters, if_neg h1, if_neg h2]
          exact List.mem_cons_of_mem _ hmem

/-- Claim C6: in every registry state, the adapter sequence exported by
`fetch_config` contains no entry for a system-defined namespace and no entry
produced by a `resource`-kind adapter, every entry pairs its namespace with
that adapter's non-empty config blob (the namespace injection), and every
non-resource, non-system adapter with a non-empty blob does appear — so an
empty-blob adapter is skipped while the other eligible adapters still
appear. -/
theorem fetch_config_excludes (st : StorageState) :
    (∀ e ∈ (fetch_config st).adapters, e.1 ∉ st.system_defined_namespaces)
    ∧ (∀ e ∈ (fetch_config st).adapters,
        ∃ a, (e.1, a) ∈ st.namespace_adapters ∧ a._type ≠ "resource".data ∧
          a.fetch_config = e.2 ∧ e.2 ≠ [])
    ∧ (∀ kv ∈ st.namespace_adapters, kv.2._type ≠ "resource".data →
        kv.1 ∉ st.system_defined_namespaces → kv.2.fetch_config ≠ [] →
        (kv.1, kv.2.fetch_config) ∈ (fetch_config st).adapters) := by
  refine ⟨?_, ?_, ?_⟩
  · intro e he
    obtain ⟨a, ha⟩ := fetch_config_adapters_sound st st.namespace_adapters e he
    exact ha.2.2.1
  · intro e he
    obtain ⟨a, ha⟩ := fetch_config_adapters_sound st st.namespace_adapters e he
    exact ⟨a, ha.1, ha.2.1, ha.2.2.2⟩
  · exact fetch_config_adapters_complete st st.namespace_adapters

/-- A system-defined namespace's adapter (excluded from export). -/
def aSys : StorageAdapterBase :=
  { _type := "local".data, fetch_config := "sysCfg".data, create_corpus_path := fun _ => [] }

/-- An adapter whose config blob is empty (skipped on export). -/
def aEmptyCfg : StorageAdapterBase :=
  { _type := "local".data, fetch_config := [], create_corpus_path := fun _ => [] }

/-- An eligible adapter that must appear in the exported config. -/
def aGood : StorageAdapterBase :=
  { _type := "remote".data, fetch_config := "goodCfg".data, create_corpus_path := fun _ => [] }

/-- A state holding a resource adapter, a system-defined adapter, an
empty-blob adapter and one eligible adapter. -/
def stCfg : StorageState :=
  { stEmpty with
    namespace_adapters :=
      [("res".data, resourceAdapter), ("sys".data, aSys),
       ("emp".data, aEmptyCfg), ("good".data, aGood)]
    system_defined_namespaces := ["sys".data] }

/-- Claim C6 (witness): the eligible adapter appears, namespace injected. -/
theorem fetch_config_excludes_witness :
    ("good".data, "goodCfg".data) ∈ (fetch_config stCfg).adapters := by
  have h := (fetch_config_excludes stCfg).2.2 ("good".data, aGood)
    (List.mem_cons_of_mem _ (List.mem_cons_of_mem _
      (List.mem_cons_of_mem _ (List.mem_cons_self _ _))))
    (by decide) (by decide) (by decide)
  exact h

theorem length_odInsert_of_not_mem {α : Type} (l : List (List Char × α)) (k : List Char)
    (v : α) (h : k ∉ l.map Prod.fst) : (odInsert l k v).length = l.length + 1 := by
  induction l with
  | nil => rfl
  | cons kv rest ih =>
    simp only [List.map_cons, List.mem_cons, not_or] at h
    have hk : ¬kv.1 = k := fun hh => h.1 hh.symm
    rw [odInsert, if_neg hk, List.length_cons, List.length_cons, ih h.2]

/-- An adapter entry whose `type` field is missing (skipped with a logged
error). -/
def entryMissingType : AdapterConfigEntry :=
  { «namespace» := some "badns".data, config := some "cfg".data, type := none }

/-- A well-formed `local`-typed adapter entry for namespace `a`. -/
def entryA : AdapterConfigEntry :=
  { «namespace» := some "a".data, config := some "cfgA".data, type := some "local".data }

/-- A well-formed `remote`-typed adapter entry for namespace `b`. -/
def entryB : AdapterConfigEntry :=
  { «namespace» := some "b".data, config := some "cfgB".data, type := some "remote".data }

/-- A well-formed entry whose type tag is outside the fixed registry. -/
def entryUnknown : AdapterConfigEntry :=
  { «namespace» := some "u".data, config := some "cfgU".data, type := some "weird".data }

/-- A config document with one malformed entry (missing `type`) and two
well-formed entries. -/
def docMixed : MountConfigDoc :=
  { appId := none, defaultNamespace := none, adapters := [entryMissingType, entryA, entryB] }

/-- A config document with a single unknown-typed entry. -/
def docUnknown : MountConfigDoc :=
  { appId := none, defaultNamespace := none, adapters := [entryUnknown] }

/-- Claim C5: importing the document with one entry missing `type` and two
well-formed entries mounts exactly the two well-formed namespaces (the bad
entry is skipped, the others are still processed); entries with an
unregistered type tag are collected into the unrecognized list, which is
returned exactly when the caller opts in, and without the opt-in flag
the import always returns nothing. -/
theorem mount_from_config_isolation (st : StorageState)
    (ha : "a".data ∉ st.namespace_adapters.map Prod.fst)
    (hb : "b".data ∉ st.namespace_adapters.map Prod.fst)
    (hbad : "badns".data ∉ st.namespace_adapters.map Prod.fst) :
    (mount_from_config st (some docMixed) false).2 = none
    ∧ (fetch_adapter (mount_from_config st (some docMixed) false).1 "a".data).isSome = true
    ∧ (fetch_adapter (mount_from_config st (some docMixed) false).1 "b".data).isSome = true
    ∧ (fetch_adapter (mount_from_config st (some docMixed) false).1 "badns".data).isSome
        = false
    ∧ (mount_from_config st (some docMixed) false).1.namespace_adapters.length
        = st.namespace_adapters.length + 2
    ∧ (mount_from_config st (some docUnknown) true).2 = some [entryUnknown]
    ∧ ∀ (cfg : Option MountConfigDoc), (mount_from_config st cfg false).2 = none := by
  have hstate : (mount_from_config st (some docMixed) false).1.namespace_adapters =
      odInsert (odInsert st.namespace_adapters "a".data
          (instantiate_adapter "LocalAdapter".data "cfgA".data)) "b".data
        (instantiate_adapter "RemoteAdapter".data "cfgB".data) := rfl
  have hkeysA : (odInsert st.namespace_adapters "a".data
      (instantiate_adapter "LocalAdapter".data "cfgA".data)).map Prod.fst =
      st.namespace_adapters.map Prod.fst ++ ["a".data] := by
    rw [keys_odInsert, if_neg ha]
  refine ⟨rfl, ?_, ?_, ?_, ?_, rfl, ?_⟩
  · rw [fetch_adapter, hstate,
      odLookup_odInsert_ne _ _ _ _ (by decide : "a".data ≠ "b".data),
      odLookup_odInsert_self]
    rfl
  · rw [fetch_adapter, hstate, odLookup_odInsert_self]
    rfl
  · rw [fetch_adapter, hstate,
      odLookup_odInsert_ne _ _ _ _ (by decide : "badns".data ≠ "b".data),
      odLookup_odInsert_ne _ _ _ _ (by decide : "badns".data ≠ "a".data),
      odLookup_eq_none_of_not_mem_keys _ _ hbad]
    rfl
  · rw [hstate, length_odInsert_of_not_mem _ _ _
      (by
        rw [hkeysA]
        simp only [List.mem_append, List.mem_singleton, not_or]
        exact ⟨hb, by decide⟩),
      length_odInsert_of_not_mem _ _ _ ha]
  · intro cfg
    cases cfg <;> rfl

/-- Claim C5 (witness). -/
theorem mount_from_config_isolation_witness :
    (mount_from_config stEmpty (some docMixed) false).1.namespace_adapters.length
      = stEmpty.namespace_adapters.length + 2
    ∧ (mount_from_config stEmpty (some docUnknown) true).2 = some [entryUnknown] := by
  have h := mount_from_config_isolation stEmpty (by decide) (by decide) (by decide)
  exact ⟨h.2.2.2.2.1, h.2.2.2.2.2.1⟩

theorem registryInv_mount (st : StorageState) (ns : List Char)
    (a : Option StorageAdapterBase) (h : RegistryInv st) :
    RegistryInv (mount st ns a) := by
  obtain ⟨h1, h2⟩ := h
  cases a with
  | none => exact ⟨h1, h2⟩
  | some ad =>
    constructor
    · show (odInsert st.namespace_adapters ns ad).map Prod.fst =
        (odInsert st.namespace_folders ns ⟨ns, ['/']⟩).map Prod.fst
      rw [keys_odInsert, keys_odInsert, h1]
    · show ∀ kv ∈ odInsert st.namespace_folders ns ⟨ns, ['/']⟩, _
      intro kv hkv
      rcases mem_odInsert hkv with hm | hm
      · exact h2 kv hm
      · rw [hm]
        exact ⟨rfl, rfl⟩

theorem registryInv_unmount (st : StorageState) (ns : List Char) (h : RegistryInv st) :
    RegistryInv (unmount st ns) := by
  obtain ⟨h1, h2⟩ := h
  have hst1 : RegistryInv
      { st with
        namespace_adapters := st.namespace_adapters.filter (fun kv => kv.1 != ns)
        namespace_folders := st.namespace_folders.filter (fun kv => kv.1 != ns)
        system_defined_namespaces :=
          if ns ∈ st.system_defined_namespaces then
            st.system_defined_namespaces.filter (fun x => x != ns)
          else st.system_defined_namespaces } := by
    constructor
    · show (st.namespace_adapters.filter (fun kv => kv.1 != ns)).map Prod.fst =
        (st.namespace_folders.filter (fun kv => kv.1 != ns)).map Prod.fst
      rw [keys_filter_out, keys_filter_out, h1]
    · intro kv hkv
      exact h2 kv (List.mem_of_mem_filter hkv)
  unfold unmount
  by_cases hc : ns = "cdm".data
  · rw [if_pos hc]
    exact registryInv_mount _ _ _ hst1
  · rw [if_neg hc]
    exact hst1

theorem registryInv_mfc_loop (acc : StorageState × List AdapterConfigEntry)
    (items : List AdapterConfigEntry) (h : RegistryInv acc.1) :
    RegistryInv (mount_from_config_loop acc items).1 := by
  induction items generalizing acc with
  | nil => exact h
  | cons item rest ih =>
    rw [mount_from_config_loop]
    apply ih
    unfold mount_from_config_step
    by_cases h1 : truthy item.«namespace» = false
    · rw [if_pos h1]; exact h
    · rw [if_neg h1]
      by_cases h2 : truthy item.config = false
      · rw [if_pos h2]; exact h
      · rw [if_neg h2]
        by_cases h3 : truthy item.type = false
        · rw [if_pos h3]; exact h
        · rw [if_neg h3]
          cases hl : odLookup registered_adapter_types (item.type.getD []) with
          | none => exact h
          | some class_name => exact registryInv_mount _ _ _ h

theorem registryInv_mount_from_config (st : StorageState)
    (cfg : Option MountConfigDoc) (flag : Bool) (h : RegistryInv st) :
    RegistryInv (mount_from_config st cfg flag).1 := by
  cases cfg with
  | none => exact h
  | some doc =>
    show RegistryInv (mount_from_config_loop (_, []) doc.adapters).1
    apply registryInv_mfc_loop
    show RegistryInv _
    by_cases h1 : truthy doc.appId
    · by_cases h2 : truthy doc.defaultNamespace
      · simp only [mount_from_config, if_pos h1, if_pos h2]
        exact h
      · simp only [mount_from_config, if_pos h1, if_neg h2]
        exact h
    · by_cases h2 : truthy doc.defaultNamespace
      · simp only [mount_from_config, if_neg h1, if_pos h2]
        exact h
      · simp only [mount_from_config, if_neg h1, if_neg h2]
        exact h

theorem registryInv_applyOps (st : StorageState) (ops : List StorageOp)
    (h : RegistryInv st) : RegistryInv (applyOps st ops) := by
  induction ops generalizing st with
  | nil => exact h
  | cons op rest ih =>
    rw [applyOps]
    apply ih
    cases op with
    | mountOp ns a => exact registryInv_mount st ns a h
    | unmountOp ns => exact registryInv_unmount st ns h
    | mountFromConfigOp cfg flag => exact registryInv_mount_from_config st cfg flag h

/-- Claim C9: every sequence of mount, unmount and import operations
preserves the registry pairing invariant — the adapter map and the
root-folder map register exactly the same namespaces, and every root folder
carries its key as `namespace` and `/` as `folder_path` — so after any such
sequence a namespace has a mounted adapter iff it has a root folder; and
mounting a namespace then immediately fetching returns the just-mounted
adapter, and (for a truthy namespace) a root container with `folder_path`
`/`. -/
theorem registry_pairing (st : StorageState) (ops : List StorageOp) (ns : List Char)
    (a : StorageAdapterBase) (h : RegistryInv st) :
    RegistryInv (applyOps st ops)
    ∧ (∀ n, (odLookup (applyOps st ops).namespace_adapters n).isSome = true ↔
        (odLookup (applyOps st ops).namespace_folders n).isSome = true)
    ∧ fetch_adapter (mount st ns (some a)) ns = some a
    ∧ (ns ≠ [] → fetch_root_folder (mount st ns (some a)) ns = some ⟨ns, ['/']⟩) := by
  have hinv := registryInv_applyOps st ops h
  refine ⟨hinv, ?_, ?_, ?_⟩
  · intro n
    rw [odLookup_isSome_iff_mem_keys, odLookup_isSome_iff_mem_keys, hinv.1]
  · exact odLookup_odInsert_self _ _ _
  · intro hns
    rw [fetch_root_folder, if_pos hns]
    exact odLookup_odInsert_self _ _ _

/-- A plain adapter used in the C9 witness state. -/
def adW : StorageAdapterBase :=
  { _type := "local".data, fetch_config := "w".data, create_corpus_path := fun _ => [] }

/-- Claim C9 (witness). -/
theorem registry_pairing_witness :
    RegistryInv (applyOps stEmpty
      [StorageOp.mountOp "x".data (some adW), StorageOp.unmountOp "y".data])
    ∧ fetch_adapter (mount stEmpty "x".data (some adW)) "x".data = some adW
    ∧ fetch_root_folder (mount stEmpty "x".data (some adW)) "x".data
        = some ⟨"x".data, ['/']⟩ := by
  have h := registry_pairing stEmpty
    [StorageOp.mountOp "x".data (some adW), StorageOp.unmountOp "y".data]
    "x".data adW ⟨rfl, fun kv hkv => absurd hkv (List.not_mem_nil kv)⟩
  exact ⟨h.1, h.2.2.1, h.2.2.2 (by decide)⟩

/-- The relative branch of `create_absolute_corpus_path`, for a context
object with a truthy namespace and a well-formed, `/`-terminated folder path:
the folder path is prepended and the context namespace wins the namespace
resolution. -/
theorem absolute_of_relative_branch (st : StorageState) (p ns fp : List Char)
    (hp : contains_unsupported_path_format p = false)
    (hfp : contains_unsupported_path_format fp = false)
    (hns : ns ≠ [])
    (hfpl : fp.getLast? = some '/')
    (hrem : (split_namespace_path p).2 ≠ [])
    (hrel : (split_namespace_path p).2.head? ≠ some '/')
    (hmatch : (split_namespace_path p).1 = [] ∨ (split_namespace_path p).1 = ns) :
    create_absolute_corpus_path st p (some ⟨ns, fp⟩) =
      Except.ok (some (ns ++ ':' :: (fp ++ (split_namespace_path p).2))) := by
  obtain ⟨c, cs, hcc⟩ := List.exists_cons_of_ne_nil hrem
  have hcne : ¬(c = '/') := by
    rw [hcc] at hrel
    simpa using hrel
  rcases hmatch with h1 | h1
  · have hsplit : split_namespace_path p = ([], c :: cs) := by rw [← h1, ← hcc]
    simp only [create_absolute_corpus_path, hsplit, hp, hfp, hfpl]
    simp [hcne, hns, pyOr]
  · have hsplit : split_namespace_path p = (ns, c :: cs) := by rw [← h1, ← hcc]
    simp only [create_absolute_corpus_path, hsplit, hp, hfp, hfpl]
    simp [hcne, hns, pyOr]

/-- Claim C2: for a relative input path (remainder not starting with `/`,
with any explicit namespace prefix agreeing with the context) and a context
object with truthy namespace and well-formed `/`-terminated folder path,
`create_absolute_corpus_path` prepends the context's folder path, and the
final namespace is the first non-empty among context namespace, explicit
path namespace and the process default — here the context namespace, for
every default. -/
theorem create_absolute_prepends_folder (st : StorageState) (p ns fp : List Char)
    (hp : contains_unsupported_path_format p = false)
    (hfp : contains_unsupported_path_format fp = false)
    (hns : ns ≠ [])
    (hfpl : fp.getLast? = some '/')
    (hrem : (split_namespace_path p).2 ≠ [])
    (hrel : (split_namespace_path p).2.head? ≠ some '/')
    (hmatch : (split_namespace_path p).1 = [] ∨ (split_namespace_path p).1 = ns) :
    create_absolute_corpus_path st p (some ⟨ns, fp⟩) =
      Except.ok (some (ns ++ ':' :: (fp ++ (split_namespace_path p).2))) :=
  absolute_of_relative_branch st p ns fp hp hfp hns hfpl hrem hrel hmatch

/-- Claim C2 (witness): the spec's example,
`to_absolute("foo/bar.txt", obj)` with `obj.namespace = "local"` and
`obj.folder_path = "/data/"` yields `"local:/data/foo/bar.txt"`. -/
theorem create_absolute_prepends_folder_witness :
    create_absolute_corpus_path stEmpty "foo/bar.txt".data
      (some ⟨"local".data, "/data/".data⟩) =
      Except.ok (some "local:/data/foo/bar.txt".data) := by
  have h := create_absolute_prepends_folder stEmpty "foo/bar.txt".data "local".data
    "/data/".data (by decide) (by decide) (by decide) (by decide) (by decide)
    (by decide) (Or.inl (by decide))
  exact h

/-- Claim C1 (counterexample): the round trip is not the identity in the two
"in particular" cases.  With a context carrying no namespace, the relative
step never strips anything, so the round trip returns the absolute path, not
`p`; and when `p` itself carries a namespace prefix equal to the context's,
the round trip returns `p` with that prefix stripped, not `p`. -/
theorem roundtrip_counterexample :
    create_absolute_corpus_path stEmpty "foo/bar.txt".data
        (some ⟨[], "/data/".data⟩) = Except.ok (some "/data/foo/bar.txt".data)
    ∧ create_relative_corpus_path stEmpty "/data/foo/bar.txt".data
        (some ⟨[], "/data/".data⟩) = Except.ok (some "/data/foo/bar.txt".data)
    ∧ "/data/foo/bar.txt".data ≠ "foo/bar.txt".data
    ∧ create_absolute_corpus_path stEmpty "local:foo/bar.txt".data
        (some ⟨"local".data, "/data/".data⟩) =
        Except.ok (some "local:/data/foo/bar.txt".data)
    ∧ create_relative_corpus_path stEmpty "local:/data/foo/bar.txt".data
        (some ⟨"local".data, "/data/".data⟩) = Except.ok (some "foo/bar.txt".data)
    ∧ "foo/bar.txt".data ≠ "local:foo/bar.txt".data :=
  ⟨rfl, rfl, by decide, rfl, rfl, by decide⟩

theorem str_startswith_shift (ns tail : List Char) :
    str_startswith (ns ++ ':' :: tail) (ns ++ [':']) = true := by
  have h : ns ++ ':' :: tail = (ns ++ [':']) ++ tail := by simp
  rw [h]
  exact str_startswith_append _ _

theorem drop_length_shift (ns tail : List Char) :
    (ns ++ ':' :: tail).drop (ns ++ [':']).length = tail := by
  have h : ns ++ ':' :: tail = (ns ++ [':']) ++ tail := by simp
  rw [h]
  exact List.drop_left _ _

/-- Claim C1 (amended): the round-trip law holds for every well-formed
relative path `p` that carries no namespace prefix (no `:` at all) and every
context whose namespace is truthy and colon-free and whose folder path is
well-formed, absolute and `/`-terminated (its folder path is then a prefix of
the resolved absolute path, which must itself be well-formed):
`create_absolute_corpus_path` yields `ns:fp ++ p` and
`create_relative_corpus_path` maps that back to exactly `p`.  When the
context carries no namespace, or `p` carries the context's namespace prefix,
the round trip is not the identity (see the counterexample). -/
theorem roundtrip_relative_absolute (st : StorageState) (p ns fp : List Char)
    (hp : contains_unsupported_path_format p = false)
    (hpc : ':' ∉ p)
    (hpne : p ≠ [])
    (hph : p.head? ≠ some '/')
    (hns : ns ≠ [])
    (hnsc : ':' ∉ ns)
    (hfph : fp.head? = some '/')
    (hfpl : fp.getLast? = some '/')
    (hfp : contains_unsupported_path_format fp = false)
    (habs : contains_unsupported_path_format (ns ++ ':' :: (fp ++ p)) = false) :
    create_absolute_corpus_path st p (some ⟨ns, fp⟩) =
      Except.ok (some (ns ++ ':' :: (fp ++ p)))
    ∧ create_relative_corpus_path st (ns ++ ':' :: (fp ++ p)) (some ⟨ns, fp⟩) =
      Except.ok (some p) := by
  have hsplitp : split_namespace_path p = ([], p) := split_namespace_path_of_not_mem hpc
  have habs1 : create_absolute_corpus_path st p (some ⟨ns, fp⟩) =
      Except.ok (some (ns ++ ':' :: (fp ++ p))) := by
    have h := absolute_of_relative_branch st p ns fp hp hfp hns hfpl
      (by rw [hsplitp]; exact hpne) (by rw [hsplitp]; exact hph)
      (Or.inl (by rw [hsplitp]))
    rw [hsplitp] at h
    exact h
  refine ⟨habs1, ?_⟩
  obtain ⟨fs, hfc⟩ : ∃ fs, fp = '/' :: fs := by
    cases fp with
    | nil => simp at hfph
    | cons f0 fs =>
      simp only [List.head?] at hfph
      exact ⟨fs, by rw [(Option.some.injEq _ _).mp hfph]⟩
  have hsplita : split_namespace_path (ns ++ ':' :: (fp ++ p)) = (ns, fp ++ p) :=
    split_namespace_path_append (fp ++ p) hnsc
  have habs2 : create_absolute_corpus_path st (ns ++ ':' :: (fp ++ p)) (some ⟨ns, fp⟩) =
      Except.ok (some (ns ++ ':' :: (fp ++ p))) := by
    simp only [create_absolute_corpus_path, hsplita, habs, hfp, hfpl]
    rw [hfc, List.cons_append]
    simp [pyOr, hns]
  unfold create_relative_corpus_path
  rw [habs2]
  have hfpne : fp ≠ [] := by rw [hfc]; exact List.cons_ne_nil _ _
  simp [hns, str_startswith_shift, drop_length_shift, hfpne, str_startswith_append,
    List.drop_left]

/-- Claim C1 (witness): the amended round trip at the spec's example data. -/
theorem roundtrip_relative_absolute_witness :
    create_absolute_corpus_path stEmpty "foo/bar.txt".data
      (some ⟨"local".data, "/data/".data⟩) =
      Except.ok (some ("local".data ++ ':' :: ("/data/".data ++ "foo/bar.txt".data)))
    ∧ create_relative_corpus_path stEmpty
        ("local".data ++ ':' :: ("/data/".data ++ "foo/bar.txt".data))
        (some ⟨"local".data, "/data/".data⟩) =
      Except.ok (some "foo/bar.txt".data) :=
  roundtrip_relative_absolute stEmpty "foo/bar.txt".data "local".data "/data/".data
    (by decide) (by decide) (by decide) (by decide) (by decide) (by decide)
    (by decide) (by decide) (by decide) (by decide)

end CdmStorage
